import Mathlib

/-!
Verification of the secret-memory library (`secret-mem`): a shallow Lean
embedding of its page arithmetic, allocator backends, provider selector and
the `SecretBox` typestate container, with theorems settling the stated
properties of each component.

Machine integers (Rust `usize` on a 64-bit target) are modelled as `Nat`
with explicit reduction modulo `2 ^ 64` exactly where the source uses
wrapping operations.
-/

namespace SecretMem

/-! ## Page arithmetic (`src/alloc/mod.rs`, `mod util`)

The source computes, for a `Layout` of size `size` and alignment `align`
and the cached OS page size, the rounded allocation length

  `size.wrapping_add(align).wrapping_sub(1) & !align.wrapping_sub(1)`

where `align` was first replaced by `cmp::max(layout.align(), page_size())`.
All arithmetic is on 64-bit `usize`. -/

/-- One past the largest `usize` value on the 64-bit targets the crate
supports: `2 ^ 64`. -/
def USIZE : Nat := 2 ^ 64

/-- `usize::wrapping_add`. -/
def wrapping_add (a b : Nat) : Nat := (a + b) % USIZE

/-- `usize::wrapping_sub` for operands already below `2 ^ 64`. -/
def wrapping_sub (a b : Nat) : Nat := (a + (USIZE - b % USIZE)) % USIZE

/-- Bitwise complement `!x` on a 64-bit word, valid for `x < 2 ^ 64`. -/
def u64_not (x : Nat) : Nat := (USIZE - 1) - x

/-- `util::aligned_layout_size` from `src/alloc/mod.rs`: with
`a := max align page` (the source's shadowed `align`), the value
`size.wrapping_add(a).wrapping_sub(1) & !a.wrapping_sub(1)`. -/
def aligned_layout_size (size align page : Nat) : Nat :=
  let a := max align page
  (wrapping_sub (wrapping_add size a) 1) &&& (u64_not (wrapping_sub a 1))

/-- Clearing the low `t` bits of a `w`-bit word rounds down to a multiple
of `2 ^ t`. -/
theorem land_mask_eq (x t w : Nat) (hx : x < 2 ^ w) (ht : t ≤ w) :
    x &&& (2 ^ w - 2 ^ t) = x / 2 ^ t * 2 ^ t := by
  have hpow : 2 ^ (w - t) * 2 ^ t = 2 ^ w := by
    rw [← pow_add]
    congr 1
    omega
  have hmask : 2 ^ w - 2 ^ t = (2 ^ (w - t) - 1) <<< t := by
    rw [Nat.shiftLeft_eq, Nat.sub_mul, one_mul, hpow]
  have hrhs : x / 2 ^ t * 2 ^ t = x >>> t <<< t := by
    rw [Nat.shiftRight_eq_div_pow, Nat.shiftLeft_eq]
  rw [hmask, hrhs]
  apply Nat.eq_of_testBit_eq
  intro i
  simp only [Nat.testBit_land, Nat.testBit_shiftLeft, Nat.testBit_shiftRight,
    Nat.testBit_two_pow_sub_one, ge_iff_le]
  rcases Nat.lt_or_ge i t with hit | hit
  · simp [Nat.not_le.mpr hit]
  · have h1 : t + (i - t) = i := by omega
    rcases Nat.lt_or_ge i w with hiw | hiw
    · have h2 : i - t < w - t := by omega
      simp [hit, h1, h2]
    · have hx2 : x < 2 ^ i :=
        lt_of_lt_of_le hx (Nat.pow_le_pow_right (by norm_num) hiw)
      simp [hit, h1, Nat.testBit_lt_two_pow hx2]

/-- C3. `aligned_layout_size` on a layout of size `s` and power-of-two
alignment `align`, with the power-of-two system page size `page`, returns
the smallest multiple of `max align page` that is at least `s`.  The
hypotheses are the domain of the Rust function: `align` and `page` are
powers of two fitting a 64-bit `usize`, and `s` respects `Layout`'s
documented size bound of `isize::MAX`. -/
theorem aligned_layout_size_least_multiple
    (s align page ka kp : Nat)
    (ha : align = 2 ^ ka) (hp : page = 2 ^ kp)
    (hka : ka ≤ 63) (hkp : kp ≤ 63) (hs : s ≤ 2 ^ 63 - 1) :
    aligned_layout_size s align page % max align page = 0 ∧
    s ≤ aligned_layout_size s align page ∧
    ∀ y : Nat, y % max align page = 0 → s ≤ y →
      aligned_layout_size s align page ≤ y := by
  subst ha hp
  obtain ⟨m, hmpos, hm63, hmax, hmask⟩ :
      ∃ m : Nat, 0 < m ∧ m ≤ 2 ^ 63 ∧ max (2 ^ ka) (2 ^ kp) = m ∧
        ∀ x : Nat, x < 2 ^ 64 → x &&& (2 ^ 64 - m) = x / m * m := by
    refine ⟨2 ^ (max ka kp), Nat.two_pow_pos _,
      Nat.pow_le_pow_right (by norm_num) (by omega), ?_, ?_⟩
    · rcases Nat.le_total ka kp with h | h
      · rw [Nat.max_eq_right h,
          Nat.max_eq_right (Nat.pow_le_pow_right (by norm_num) h)]
      · rw [Nat.max_eq_left h,
          Nat.max_eq_left (Nat.pow_le_pow_right (by norm_num) h)]
    · intro x hx
      exact land_mask_eq x (max ka kp) 64 hx (by omega)
  have hsum : s + m < 2 ^ 64 := by omega
  have heval : aligned_layout_size s (2 ^ ka) (2 ^ kp) = (s + m - 1) / m * m := by
    have e1 : wrapping_add s m = s + m := by
      unfold wrapping_add USIZE
      exact Nat.mod_eq_of_lt hsum
    have e2 : wrapping_sub (s + m) 1 = s + m - 1 := by
      unfold wrapping_sub USIZE
      have h1 : s + m + (2 ^ 64 - 1 % 2 ^ 64) = (s + m - 1) + 2 ^ 64 := by omega
      rw [h1, Nat.add_mod_right]
      exact Nat.mod_eq_of_lt (by omega)
    have e3 : wrapping_sub m 1 = m - 1 := by
      unfold wrapping_sub USIZE
      have h1 : m + (2 ^ 64 - 1 % 2 ^ 64) = (m - 1) + 2 ^ 64 := by omega
      rw [h1, Nat.add_mod_right]
      exact Nat.mod_eq_of_lt (by omega)
    have e4 : u64_not (m - 1) = 2 ^ 64 - m := by
      unfold u64_not USIZE
      omega
    show (wrapping_sub (wrapping_add s (max (2 ^ ka) (2 ^ kp))) 1) &&&
        (u64_not (wrapping_sub (max (2 ^ ka) (2 ^ kp)) 1)) = (s + m - 1) / m * m
    rw [hmax, e1, e2, e3, e4]
    exact hmask (s + m - 1) (by omega)
  rw [heval, hmax]
  have hdm := Nat.div_add_mod (s + m - 1) m
  have hmod := Nat.mod_lt (s + m - 1) hmpos
  refine ⟨Nat.mul_mod_left _ _, ?_, ?_⟩
  · rw [Nat.mul_comm]
    omega
  · intro y hy hsy
    have hk := Nat.div_add_mod y m
    have hle : s + m - 1 ≤ m * (y / m) + (m - 1) := by omega
    have hstep : (s + m - 1) / m ≤ y / m := by
      have h2 := Nat.div_le_div_right (c := m) hle
      rwa [Nat.mul_add_div hmpos, Nat.div_eq_of_lt (show m - 1 < m by omega),
        Nat.add_zero] at h2
    calc (s + m - 1) / m * m
        ≤ y / m * m := Nat.mul_le_mul_right _ hstep
      _ = y := by
          rw [Nat.mul_comm]
          omega

/-- C3 witness: a 5-byte, 8-aligned layout on a 4096-byte-page system is
rounded to one full page. -/
theorem aligned_layout_size_least_multiple_witness :
    aligned_layout_size 5 8 4096 % max 8 4096 = 0 ∧
    5 ≤ aligned_layout_size 5 8 4096 ∧
    ∀ y : Nat, y % max 8 4096 = 0 → 5 ≤ y → aligned_layout_size 5 8 4096 ≤ y :=
  aligned_layout_size_least_multiple 5 8 4096 3 12 (by norm_num) (by norm_num)
    (by norm_num) (by norm_num) (by norm_num)

/-! ## Backend release traces (`src/alloc/unix.rs`, `linux.rs`, `windows.rs`)

Each backend's `Drop` implementation is embedded as the sequence of
OS-visible operations it performs, in source order.  `Zeroize::zeroize`
(the `zeroize` crate's volatile, non-elidable overwrite of every byte of
the region with zero) is one observable event of the trace, which is how
the contract "zeroing must not be optimized away" is carried by the
model. -/

inductive MemOp
  | mprotect_write
  | mprotect_read
  | zeroize
  | madvise_dodump
  | munlock
  | munmap
  | virtualProtect_rw
  | virtualProtect_ro
  | virtualUnlock
  | virtualFree
deriving DecidableEq, Repr

/-- `impl Drop for UnixSecretMemoryMut` (unix.rs 89-104, the
non-BSD `MADV_DODUMP` branch): zeroize, undo the core-dump exclusion,
munlock, munmap. -/
def UnixSecretMemoryMut.dropTrace : List MemOp :=
  [MemOp.zeroize, MemOp.madvise_dodump, MemOp.munlock, MemOp.munmap]

/-- `impl Drop for UnixSecretMemory` (unix.rs 145-161): restore write
permission, zeroize, undo the core-dump exclusion, munlock, munmap. -/
def UnixSecretMemory.dropTrace : List MemOp :=
  [MemOp.mprotect_write, MemOp.zeroize, MemOp.madvise_dodump,
    MemOp.munlock, MemOp.munmap]

/-- `impl Drop for LinuxSecretMemoryMut` (linux.rs 78-84): zeroize, munmap. -/
def LinuxSecretMemoryMut.dropTrace : List MemOp :=
  [MemOp.zeroize, MemOp.munmap]

/-- `impl Drop for LinuxSecretMemory` (linux.rs 125-132): restore write
permission, zeroize, munmap. -/
def LinuxSecretMemory.dropTrace : List MemOp :=
  [MemOp.mprotect_write, MemOp.zeroize, MemOp.munmap]

/-- `impl Drop for WindowsSecretMemoryMut` (windows.rs 75-85): zeroize,
VirtualUnlock, VirtualFree. -/
def WindowsSecretMemoryMut.dropTrace : List MemOp :=
  [MemOp.zeroize, MemOp.virtualUnlock, MemOp.virtualFree]

/-- `impl Drop for WindowsSecretMemory` (windows.rs 135-155): restore
read-write protection, zeroize, VirtualUnlock, VirtualFree. -/
def WindowsSecretMemory.dropTrace : List MemOp :=
  [MemOp.virtualProtect_rw, MemOp.zeroize, MemOp.virtualUnlock,
    MemOp.virtualFree]

/-- The zeroize event occurs in the trace, before the event `ret` that
returns the pages to the OS. -/
def zeroesBefore (ret : MemOp) (tr : List MemOp) : Prop :=
  MemOp.zeroize ∈ tr ∧ ret ∈ tr ∧ tr.indexOf MemOp.zeroize < tr.indexOf ret

/-- The event `restore` (restoring write permission) occurs before the
zeroize event. -/
def restoresWriteBefore (restore : MemOp) (tr : List MemOp) : Prop :=
  restore ∈ tr ∧ tr.indexOf restore < tr.indexOf MemOp.zeroize

/-- C2. Every backend's release path — the `Drop` implementation of each
of the six region types, mutable and read-only, on Unix, Linux and
Windows — zeroes the region before the pages are returned to the OS
(`munmap` / `VirtualFree`), and the read-only variants first restore
write permission (`mprotect(PROT_WRITE)` / `VirtualProtect(PAGE_READWRITE)`)
before zeroing. -/
theorem release_zeroes_every_backend :
    zeroesBefore MemOp.munmap UnixSecretMemoryMut.dropTrace ∧
    zeroesBefore MemOp.munmap UnixSecretMemory.dropTrace ∧
    restoresWriteBefore MemOp.mprotect_write UnixSecretMemory.dropTrace ∧
    zeroesBefore MemOp.munmap LinuxSecretMemoryMut.dropTrace ∧
    zeroesBefore MemOp.munmap LinuxSecretMemory.dropTrace ∧
    restoresWriteBefore MemOp.mprotect_write LinuxSecretMemory.dropTrace ∧
    zeroesBefore MemOp.virtualFree WindowsSecretMemoryMut.dropTrace ∧
    zeroesBefore MemOp.virtualFree WindowsSecretMemory.dropTrace ∧
    restoresWriteBefore MemOp.virtualProtect_rw WindowsSecretMemory.dropTrace := by
  unfold zeroesBefore restoresWriteBefore
  decide

/-! ## `SecretBox` destruction order (`src/boxed.rs`, `impl Drop`)

`Drop for SecretBox<T, L>` (boxed.rs 180-191) runs, for both lock
states, exactly: `ptr::drop_in_place(pointer)` and then
`secret_alloc.dealloc(pointer, Layout::new::<T>())`, with the `dealloc`
result discarded (`let _ =`).  Any permission restoration and the secure
zeroing live inside `dealloc`. -/

inductive DropStep
  | markReadWrite
  | dropValueInPlace
  | zeroRegion
  | releaseRegion
deriving DecidableEq, Repr

/-- Modelled from the spec: the `SecretAllocator::dealloc` implementations
(`UnixSecretAllocator` / `LinuxSecretAllocator` / `WindowsSecretAllocator`)
are declared and selected in `src/alloc/mod.rs` but their bodies are not
among the repository files; per the spec's `release` contract the operation
restores write permission when the region is read-only (best effort),
securely zeroes every byte, then returns the pages to the OS. -/
def dealloc_steps (readOnly : Bool) : List DropStep :=
  (if readOnly then [DropStep.markReadWrite] else []) ++
    [DropStep.zeroRegion, DropStep.releaseRegion]

/-- `impl Drop for SecretBox<T, L>` from boxed.rs: destruct the contained
value in place, then `dealloc` the region (the region is read-only exactly
when the box is in the `Locked` state). -/
def SecretBox.dropTrace (locked : Bool) : List DropStep :=
  DropStep.dropValueInPlace :: dealloc_steps locked

/-- The destruction order claimed for `SecretBox`: if locked first
restore read-write permission, then destruct the value in place, then
zero, then release.  Stated from the spec's words, for comparison with
the trace of the code. -/
def SecretBox.claimedDropTrace (locked : Bool) : List DropStep :=
  (if locked then [DropStep.markReadWrite] else []) ++
    [DropStep.dropValueInPlace, DropStep.zeroRegion, DropStep.releaseRegion]

/-- C1 counterexample: on the locked-state destruction path the code's
order differs from the claimed order — `drop_in_place` runs before
`dealloc`, so the contained value is destructed before the read-write
restore, not after. -/
theorem secretBox_drop_order_counterexample :
    SecretBox.dropTrace true ≠ SecretBox.claimedDropTrace true := by
  decide

/-- C1 amended: on every destruction path `SecretBox`'s drop first
destructs the contained value in place (position 0 of the trace), then —
inside the region release — restores read-write permission when locked,
then zeroes all bytes of the region, then releases it; the zeroing step
is present on both the locked and unlocked paths, always after the value
destruct and before the release. -/
theorem secretBox_drop_order_amended (locked : Bool) :
    (SecretBox.dropTrace locked).indexOf DropStep.dropValueInPlace = 0 ∧
    DropStep.zeroRegion ∈ SecretBox.dropTrace locked ∧
    DropStep.releaseRegion ∈ SecretBox.dropTrace locked ∧
    (SecretBox.dropTrace locked).indexOf DropStep.zeroRegion <
      (SecretBox.dropTrace locked).indexOf DropStep.releaseRegion ∧
    (locked = true →
      DropStep.markReadWrite ∈ SecretBox.dropTrace locked ∧
      0 < (SecretBox.dropTrace locked).indexOf DropStep.markReadWrite ∧
      (SecretBox.dropTrace locked).indexOf DropStep.markReadWrite <
        (SecretBox.dropTrace locked).indexOf DropStep.zeroRegion) ∧
    (locked = false →
      DropStep.markReadWrite ∉ SecretBox.dropTrace locked) := by
  cases locked <;> decide

/-! ## Backend allocation (`with_length`): all-or-nothing acquisition

Each backend's `with_length` is embedded as a function of the outcomes
the OS gives its system calls.  The state records which OS resources are
held when the call returns; each failure branch performs exactly the
undo calls the source performs. -/

/-- Outcomes of the OS calls `UnixSecretMemoryMut::with_length`
(unix.rs 27-72) makes: `mmap`, `mlock`, `madvise`. -/
structure UnixEnv where
  mmap_ok : Bool
  mlock_ok : Bool
  madvise_ok : Bool
deriving DecidableEq

/-- OS resources a Unix allocation holds: an anonymous private mapping,
an `mlock` pin, and the `MADV_DONTDUMP` core-dump exclusion. -/
structure UnixRes where
  mapped : Bool
  mlocked : Bool
  advised : Bool
deriving DecidableEq, Repr

/-- No resource held. -/
def UnixRes.none : UnixRes := ⟨false, false, false⟩

/-- All three resources held: the state of a successful allocation. -/
def UnixRes.all : UnixRes := ⟨true, true, true⟩

/-- `UnixSecretMemoryMut::with_length`: mmap; on mlock failure munmap and
return the error; on madvise failure munlock, munmap and return the
error. -/
def UnixSecretMemoryMut.with_length (e : UnixEnv) : Option UnixRes × UnixRes :=
  if e.mmap_ok = false then
    (Option.none, UnixRes.none)
  else if e.mlock_ok = false then
    (Option.none, { mapped := false, mlocked := false, advised := false })
  else if e.madvise_ok = false then
    (Option.none, { mapped := false, mlocked := false, advised := false })
  else
    (some UnixRes.all, UnixRes.all)

/-- Outcomes of the OS calls `WindowsSecretMemoryMut::with_length`
(windows.rs 30-58) makes: `VirtualAlloc`, `VirtualLock`. -/
structure WinEnv where
  valloc_ok : Bool
  vlock_ok : Bool
deriving DecidableEq

/-- OS resources a Windows allocation holds: the committed reservation
and the `VirtualLock` page pin. -/
structure WinRes where
  allocated : Bool
  vlocked : Bool
deriving DecidableEq, Repr

/-- No resource held. -/
def WinRes.none : WinRes := ⟨false, false⟩

/-- Both resources held: the state of a successful allocation. -/
def WinRes.all : WinRes := ⟨true, true⟩

/-- `WindowsSecretMemoryMut::with_length`: VirtualAlloc; on VirtualLock
failure VirtualFree and return the error. -/
def WindowsSecretMemoryMut.with_length (e : WinEnv) : Option WinRes × WinRes :=
  if e.valloc_ok = false then
    (Option.none, WinRes.none)
  else if e.vlock_ok = false then
    (Option.none, { allocated := false, vlocked := false })
  else
    (some WinRes.all, WinRes.all)

/-- Outcomes of the OS calls `LinuxSecretMemoryMut::with_length`
(linux.rs 27-61) makes: the `memfd_secret` syscall, `ftruncate`,
`mmap`. -/
structure LinuxEnv where
  memfd_ok : Bool
  ftruncate_ok : Bool
  mmap_ok : Bool
deriving DecidableEq

/-- OS resources a Linux allocation path can hold: the secret memfd file
descriptor (transient) and the shared mapping of it. -/
structure LinuxRes where
  fd_open : Bool
  mapped : Bool
deriving DecidableEq, Repr

/-- No resource held. -/
def LinuxRes.none : LinuxRes := ⟨false, false⟩

/-- `LinuxSecretMemoryMut::with_length`: `memfd_secret` (on failure
nothing was acquired); `ftruncate` (on failure close the fd); `mmap` the
fd and close the fd unconditionally afterwards, returning the error if
the mapping failed. -/
def LinuxSecretMemoryMut.with_length (e : LinuxEnv) : Option LinuxRes × LinuxRes :=
  if e.memfd_ok = false then
    (Option.none, LinuxRes.none)
  else if e.ftruncate_ok = false then
    (Option.none, { fd_open := false, mapped := false })
  else if e.mmap_ok = false then
    (Option.none, { fd_open := false, mapped := false })
  else
    (some { fd_open := false, mapped := true },
      { fd_open := false, mapped := true })

/-- C4. Every backend's `with_length` is all-or-nothing: when the call
returns an error the final OS state holds no resource at all (every
earlier successful step was undone), and when it succeeds the returned
region holds exactly the resources of a full allocation — so a caller
never observes a partial allocation. -/
theorem with_length_all_or_nothing :
    (∀ e : UnixEnv,
      ((UnixSecretMemoryMut.with_length e).1 = Option.none →
        (UnixSecretMemoryMut.with_length e).2 = UnixRes.none) ∧
      (∀ r, (UnixSecretMemoryMut.with_length e).1 = some r →
        r = UnixRes.all ∧ (UnixSecretMemoryMut.with_length e).2 = UnixRes.all)) ∧
    (∀ e : WinEnv,
      ((WindowsSecretMemoryMut.with_length e).1 = Option.none →
        (WindowsSecretMemoryMut.with_length e).2 = WinRes.none) ∧
      (∀ r, (WindowsSecretMemoryMut.with_length e).1 = some r →
        r = WinRes.all ∧ (WindowsSecretMemoryMut.with_length e).2 = WinRes.all)) ∧
    (∀ e : LinuxEnv,
      ((LinuxSecretMemoryMut.with_length e).1 = Option.none →
        (LinuxSecretMemoryMut.with_length e).2 = LinuxRes.none) ∧
      (∀ r, (LinuxSecretMemoryMut.with_length e).1 = some r →
        r.fd_open = false ∧ r.mapped = true ∧
          (LinuxSecretMemoryMut.with_length e).2 = r)) := by
  refine ⟨fun e => ?_, fun e => ?_, fun e => ?_⟩
  · rcases e with ⟨a, b, c⟩
    cases a <;> cases b <;> cases c <;> exact ⟨by decide, by decide⟩
  · rcases e with ⟨a, b⟩
    cases a <;> cases b <;> exact ⟨by decide, by decide⟩
  · rcases e with ⟨a, b, c⟩
    cases a <;> cases b <;> cases c <;> exact ⟨by decide, by decide⟩

/-! ## Transient file descriptor of the `memfd_secret` paths -/

/-- `ffi::unix::mmap_memfd_secret` (ffi/unix.rs 19-32): create the secret
memfd (on failure return, no fd exists); `ftruncate` it (recording an
error but not returning yet); otherwise `mmap` it; then
`libc::close(fd)` unconditionally before returning the recorded
result. -/
def mmap_memfd_secret (e : LinuxEnv) : Option LinuxRes × LinuxRes :=
  if e.memfd_ok = false then
    (Option.none, LinuxRes.none)
  else
    let afterClose : Bool → LinuxRes := fun mapped =>
      { fd_open := false, mapped := mapped }
    if e.ftruncate_ok = false then
      (Option.none, afterClose false)
    else if e.mmap_ok = false then
      (Option.none, afterClose false)
    else
      (some (afterClose true), afterClose true)

/-- C9. On the `memfd_secret`-backed allocation paths —
`LinuxSecretMemoryMut::with_length` and the FFI helper
`mmap_memfd_secret` — the temporary file descriptor is closed before the
call returns, on the success path and on every failure path: the final
state never has the fd open. -/
theorem memfd_secret_fd_always_closed :
    (∀ e : LinuxEnv, ((LinuxSecretMemoryMut.with_length e).2).fd_open = false) ∧
    (∀ e : LinuxEnv, ((mmap_memfd_secret e).2).fd_open = false) := by
  refine ⟨fun e => ?_, fun e => ?_⟩ <;>
    · rcases e with ⟨a, b, c⟩
      cases a <;> cases b <;> cases c <;> rfl

/-! ## The `SecretBox` container (`src/boxed.rs`)

`SecretBox<T, L>` holds one `Unique<T>` pointer into a region the
selected allocator owns.  The model carries the region explicitly: the
value inside the region, the region's permission and its length.  The
allocator's permission operations are injectable with a success/failure
outcome so that the failure paths of `lock`/`unlock` can be examined. -/

/-- Permission state of a secret region. -/
inductive Perm
  | rw
  | ro
deriving DecidableEq, Repr

/-- The lock typestate of `SecretBox` (`marker::Unlocked` /
`marker::Locked` in lib.rs). -/
inductive LockState
  | unlocked
  | locked
deriving DecidableEq, Repr

/-- The secret region a `SecretBox` owns: the live contained value, the
region's permission and its length in bytes. -/
structure Mem (α : Type) where
  val : α
  perm : Perm
  len : Nat
deriving DecidableEq, Repr

/-- `SecretBox<T, L>` from boxed.rs: a `Unique<T>` pointer, with the lock
state a phantom type parameter. -/
structure SecretBox (α : Type) (L : LockState) where
  pointer : Nat
deriving DecidableEq, Repr

/-- Modelled from the spec: `SecretAllocator::make_read_only`
(implementation bodies absent from the repository files) changes the
whole region's protection to read-only; on failure the region remains
in its pre-transition state. -/
def make_read_only (ok : Bool) (m : Mem α) : Option Unit × Mem α :=
  if ok then (some (), { m with perm := Perm.ro }) else (Option.none, m)

/-- Modelled from the spec: `SecretAllocator::make_writable`
(implementation bodies absent from the repository files) changes the
whole region's protection back to read-write; on failure the region
remains in its pre-transition state. -/
def make_writable (ok : Bool) (m : Mem α) : Option Unit × Mem α :=
  if ok then (some (), { m with perm := Perm.rw }) else (Option.none, m)

/-- Modelled from the spec: `SecretAllocator::alloc` (implementation
bodies absent from the repository files) reserves a zero-initialized
readable-and-writable region for the requested layout, or fails. -/
def secret_alloc (ok : Bool) (ptr sizeT : Nat) : Option (Nat × Mem Unit) :=
  if ok then some (ptr, { val := (), perm := Perm.rw, len := sizeT })
  else Option.none

/-- `SecretBox::new` (boxed.rs 35-52): allocate a region for
`Layout::new::<T>()` via the selected allocator, `ptr::write` the value
into it and wrap the pointer; `.expect(...)` makes an allocation failure
fatal, producing no container (`Option.none` here models the panic). -/
def SecretBox.new (alloc_ok : Bool) (ptr sizeT : Nat) (v : α) :
    Option (SecretBox α LockState.unlocked × Mem α) :=
  match secret_alloc alloc_ok ptr sizeT with
  | some (p, region) =>
      some (⟨p⟩, { val := v, perm := region.perm, len := region.len })
  | Option.none => Option.none

/-- `Deref for SecretBox<T, L>` (boxed.rs 153-159): read the value the
pointer refers to, available in both lock states. -/
def SecretBox.deref (_b : SecretBox α L) (m : Mem α) : α := m.val

/-- `SecretBox::lock` (boxed.rs 62-79): attempt `make_read_only`; on
success move the pointer into a `Locked` box (the original is wrapped in
`ManuallyDrop`, so it is not separately destructed); on failure return
`Err(self)`, the original box. -/
def SecretBox.lock (mro_ok : Bool) (b : SecretBox α LockState.unlocked)
    (m : Mem α) :
    Except (SecretBox α LockState.unlocked)
      (SecretBox α LockState.locked) × Mem α :=
  match make_read_only mro_ok m with
  | (some _, m2) => (Except.ok ⟨b.pointer⟩, m2)
  | (Option.none, m2) => (Except.error b, m2)

/-- `SecretBox::unlock` (boxed.rs 90-107): attempt `make_writable`; on
success move the pointer into an `Unlocked` box; on failure return
`Err(self)`, the original box. -/
def SecretBox.unlock (mrw_ok : Bool) (b : SecretBox α LockState.locked)
    (m : Mem α) :
    Except (SecretBox α LockState.locked)
      (SecretBox α LockState.unlocked) × Mem α :=
  match make_writable mrw_ok m with
  | (some _, m2) => (Except.ok ⟨b.pointer⟩, m2)
  | (Option.none, m2) => (Except.error b, m2)

/-- C7. `new(v)` with a working allocator produces an unlocked container
over a read-write region of the requested size whose dereference is `v`;
with a failing allocator it is fatal and produces no container at all:
`new` returns a container exactly when allocation succeeded. -/
theorem secretBox_new_correct (α : Type) (ok : Bool) (ptr sizeT : Nat)
    (v : α) :
    ((SecretBox.new ok ptr sizeT v).isSome = ok) ∧
    (∀ (b : SecretBox α LockState.unlocked) (m : Mem α),
      SecretBox.new ok ptr sizeT v = some (b, m) →
        SecretBox.deref b m = v ∧ m.perm = Perm.rw ∧ m.len = sizeT ∧
          b.pointer = ptr) := by
  cases ok <;> simp [SecretBox.new, secret_alloc, SecretBox.deref]

/-- C7 witness: `new(42)` on a working allocator yields a container `c`
with `*c = 42`. -/
theorem secretBox_new_correct_witness :
    ((SecretBox.new true 4096 4 (42 : Int)).isSome = true) ∧
    (∀ (b : SecretBox Int LockState.unlocked) (m : Mem Int),
      SecretBox.new true 4096 4 (42 : Int) = some (b, m) →
        SecretBox.deref b m = 42 ∧ m.perm = Perm.rw ∧ m.len = 4 ∧
          b.pointer = 4096) :=
  secretBox_new_correct Int true 4096 4 42

/-- C5. When the underlying permission change fails, the failed
transition corrupts nothing: `lock` on a failing `make_read_only` returns
`Err` with the original unlocked box (same pointer) and leaves the region
— value and permission — exactly as it was, so the dereferenced value is
still `v`; symmetrically for `unlock` on a failing `make_writable`. -/
theorem secretBox_failed_transition_intact (α : Type)
    (b : SecretBox α LockState.unlocked) (bl : SecretBox α LockState.locked)
    (m : Mem α) :
    SecretBox.lock false b m = (Except.error b, m) ∧
    SecretBox.unlock false bl m = (Except.error bl, m) ∧
    SecretBox.deref b m = m.val := by
  refine ⟨?_, ?_, rfl⟩ <;> rfl

/-- C6. A successful `lock` followed by a successful `unlock` yields an
unlocked container over the same pointer whose dereferenced value equals
the original value `v`, and the region is back to read-write. -/
theorem secretBox_lock_unlock_roundtrip (α : Type)
    (b : SecretBox α LockState.unlocked) (m : Mem α) :
    ∃ (bl : SecretBox α LockState.locked) (ml : Mem α)
      (bu : SecretBox α LockState.unlocked) (mu : Mem α),
      SecretBox.lock true b m = (Except.ok bl, ml) ∧
      SecretBox.unlock true bl ml = (Except.ok bu, mu) ∧
      bl.pointer = b.pointer ∧ bu.pointer = b.pointer ∧
      ml.perm = Perm.ro ∧ mu.perm = Perm.rw ∧
      SecretBox.deref bl ml = m.val ∧
      SecretBox.deref bu mu = m.val ∧ mu.len = m.len := by
  refine ⟨⟨b.pointer⟩, { m with perm := Perm.ro }, ⟨b.pointer⟩,
    { m with perm := Perm.rw }, ?_, ?_, rfl, rfl, rfl, rfl, rfl, rfl, rfl⟩ <;>
    rfl

/-- `Debug for SecretBox<T, L>` (boxed.rs 167-171):
`f.debug_struct("SecretBox").finish_non_exhaustive()`, which renders the
fixed text regardless of the pointer, the contained value or the lock
state. -/
def SecretBox.fmt_debug (_b : SecretBox α L) (_m : Mem α) : String :=
  "SecretBox \x7b .. \x7d"

/-- C10. The `Debug` output of a `SecretBox` is independent of the
secret: for any element types, lock states, boxes and region contents,
the two formatted outputs are identical — so the output carries no
information about (in particular, no bytes of) the contained value. -/
theorem secretBox_debug_output_independent (α β : Type)
    (L1 L2 : LockState) (b1 : SecretBox α L1) (b2 : SecretBox β L2)
    (m1 : Mem α) (m2 : Mem β) :
    SecretBox.fmt_debug b1 m1 = SecretBox.fmt_debug b2 m2 := rfl

/-! ## Provider selection (`src/alloc/mod.rs`, `platform_secret_allocator`) -/

/-- The three interchangeable backends. -/
inductive Backend
  | linux
  | unix
  | windows
deriving DecidableEq, Repr

/-- The Unix-family selection of `platform_secret_allocator`: probe
`syscall(SYS_memfd_secret, 0)`; `-1` means unsupported, so fall back to
the generic `UnixSecretAllocator`; any file descriptor is closed and the
`memfd_secret`-backed `LinuxSecretAllocator` is chosen. -/
def select_unix_backend (probe_ok : Bool) : Backend :=
  if probe_ok then Backend.linux else Backend.unix

/-- The Windows-family selection of `platform_secret_allocator`: always
the `WindowsSecretAllocator`. -/
def select_windows_backend : Backend := Backend.windows

/-- The `OnceLock<Box<dyn SecretAllocator>>` static `INSTANCE`. -/
structure SelectorState where
  cache : Option Backend
deriving DecidableEq, Repr

/-- `platform_secret_allocator` (alloc/mod.rs 88-109), Unix family:
`INSTANCE.get_or_init(...)` — if a backend is cached return it
unchanged, otherwise run the probe once, store the chosen backend and
return it. -/
def platform_secret_allocator (probe_ok : Bool) (s : SelectorState) :
    Backend × SelectorState :=
  match s.cache with
  | some b => (b, s)
  | Option.none =>
      let b := select_unix_backend probe_ok
      (b, ⟨some b⟩)

/-- C8. The backend choice is computed at the first call and memoized:
starting from the empty cache the first call stores its choice, a second
call with any probe outcome returns the first call's backend and leaves
the state untouched, and in general any call on a filled cache is a pure
read.  On Unix the `memfd_secret`-backed Linux allocator is chosen
exactly when the probe succeeds (otherwise the generic Unix allocator);
on Windows the Windows allocator is always chosen. -/
theorem platform_secret_allocator_memoized :
    (∀ p : Bool, platform_secret_allocator p ⟨Option.none⟩ =
      (select_unix_backend p, ⟨some (select_unix_backend p)⟩)) ∧
    (∀ p p2 : Bool,
      platform_secret_allocator p2
          (platform_secret_allocator p ⟨Option.none⟩).2 =
        ((platform_secret_allocator p ⟨Option.none⟩).1,
          (platform_secret_allocator p ⟨Option.none⟩).2)) ∧
    (∀ (p : Bool) (b : Backend),
      platform_secret_allocator p ⟨some b⟩ = (b, ⟨some b⟩)) ∧
    (∀ p : Bool, (select_unix_backend p = Backend.linux ↔ p = true)) ∧
    select_windows_backend = Backend.windows := by
  refine ⟨fun p => rfl, fun p p2 => rfl, fun p b => rfl, fun p => ?_, rfl⟩
  cases p <;> simp [select_unix_backend]

end SecretMem
